import Mathlib

/-!
Shallow embedding of `netplan apply` (src/netplan/cli/commands/apply.py):
the restart decision of `command_apply`, the match-table building and
rename planning of `process_link_changes`, `is_composite_member`, the
generation-failure handling, the rename-application loop, and the
NetworkManager stop/start gating.
-/

namespace NetplanApply

/-- The `match` block of a physical interface stanza: `match.get('driver')`
and `match.get('macaddress')`. -/
structure MatchBlock where
  driver : Option String
  macaddress : Option String
deriving DecidableEq

/-- The settings dict of one entry of `config_manager.physical_interfaces`:
`settings.get('set-name')` and `settings.get('match')`.  `matchBlk = none`
covers both an absent and an empty (falsy) `match` dict, which the code
treats identically (`if not match: continue`). -/
structure PhySettings where
  setName : Option String
  matchBlk : Option MatchBlock
deriving DecidableEq

/-- One physical-interface stanza: the key `phy` and its settings; the value
`none` models a falsy settings object (`if not settings: continue`). -/
abbrev PhysEntry := String × Option PhySettings

/-- The two lookup dicts `matches['by-driver']` and `matches['by-mac']`,
each a Python dict from key string to target name. -/
structure MatchTables where
  byDriver : String → Option String
  byMac : String → Option String

/-- `matches = {'by-driver': {}, 'by-mac': {}}` -/
def emptyTables : MatchTables := ⟨fun _ => none, fun _ => none⟩

/-- Python dict assignment `t[k] = v`. -/
def tableInsert (t : String → Option String) (k v : String) :
    String → Option String :=
  fun q => if q = k then some v else t q

/-- One iteration of the loop `for phy, settings in phys.items():` that
builds the match tables (apply.py lines 166-182). -/
def buildStep (acc : MatchTables) (entry : PhysEntry) : MatchTables :=
  match entry.2 with
  | none => acc
  | some settings =>
    if entry.1 = "renderer" then acc
    else
      match settings.setName with
      | none => acc
      | some newname =>
        if newname = "" then acc
        else
          match settings.matchBlk with
          | none => acc
          | some m =>
            let acc1 :=
              match m.driver with
              | some d =>
                if d = "" then acc
                else { acc with byDriver := tableInsert acc.byDriver d newname }
              | none => acc
            match m.macaddress with
            | some mac =>
              if mac = "" then acc1
              else { acc1 with byMac := tableInsert acc1.byMac mac newname }
            | none => acc1

/-- The whole table-building loop over `phys.items()`. -/
def buildTables (phys : List PhysEntry) : MatchTables :=
  phys.foldl buildStep emptyTables

/-- One entry of a composite dict (`config_manager.bridges` or
`config_manager.bonds`): an id and `settings.get('interfaces', [])`. -/
structure CompositeEntry where
  id : String
  interfaces : List String
deriving DecidableEq

/-- `NetplanApply.is_composite_member` (apply.py lines 134-147): nested
loops over the composite dicts, their entries and their member lists,
returning `True` on the first member equal to `phy`. -/
def is_composite_member (composites : List (List CompositeEntry))
    (phy : String) : Bool :=
  composites.any fun composite =>
    composite.any fun e => e.interfaces.any fun iface => iface = phy

/-- The per-interface observations the planner reads from the OS:
`operstate` (`none` models the IOError branch), the resolved driver
basename (`none` models an unresolvable driver link), and
`link.get('addr')`. -/
structure DeviceInfo where
  operstate : Option String
  driverName : Option String
  macaddress : Option String
deriving DecidableEq

/-- The `changes` dict of `process_link_changes`, with values reduced to
the string under their `'name'` key. -/
abbrev RenameChangeSet := List (String × String)

/-- Python `changes.update({k: v})`: replace the value in place if the key
is present, otherwise append the binding. -/
def dictUpdate (d : RenameChangeSet) (k v : String) : RenameChangeSet :=
  if ∃ p ∈ d, p.1 = k then
    d.map fun p => if p.1 = k then (k, v) else p
  else d ++ [(k, v)]

/-- Dict lookup `changes[k]`, as an option (keys are unique by
construction, so first match is the binding). -/
def lookupRen : RenameChangeSet → String → Option String
  | [], _ => none
  | p :: d, k => if p.1 = k then some p.2 else lookupRen d k

/-- One iteration of the loop `for interface in interfaces:` of
`process_link_changes` (apply.py lines 186-227), threading the `changes`
dict. -/
def planStep (phys : List PhysEntry) (composites : List (List CompositeEntry))
    (dev : String → DeviceInfo) (tables : MatchTables)
    (changes : RenameChangeSet) (interface : String) : RenameChangeSet :=
  if interface ∈ phys.map Prod.fst then
    if is_composite_member composites interface then changes
    else
      match (dev interface).operstate with
      | none => changes
      | some state =>
        if state = "down" then
          let driver_name := (dev interface).driverName
          let macaddress := (dev interface).macaddress
          let changes1 :=
            match driver_name.bind tables.byDriver with
            | some new_name =>
              if new_name ≠ interface then dictUpdate changes interface new_name
              else changes
            | none => changes
          match macaddress.bind tables.byMac with
          | some new_name =>
            if new_name ≠ interface then dictUpdate changes1 interface new_name
            else changes1
          | none => changes1
        else changes
  else changes

/-- `NetplanApply.process_link_changes` (apply.py lines 150-230): build the
match tables from the physical stanzas, then fold the per-interface loop
over the live interfaces starting from the empty `changes` dict. -/
def process_link_changes (interfaces : List String) (phys : List PhysEntry)
    (composites : List (List CompositeEntry)) (dev : String → DeviceInfo) :
    RenameChangeSet :=
  interfaces.foldl (planStep phys composites dev (buildTables phys)) []

/-- Left-biased choice on options, used to state how the hardware-address
branch overwrites the driver branch. -/
def orelse : Option String → Option String → Option String
  | some n, _ => some n
  | none, x => x

/-- The driver branch of the per-interface loop in isolation: look the
resolved driver up in `by-driver` and keep the target only when it
differs from the current name. -/
def driverDecision (tables : MatchTables) (info : DeviceInfo)
    (interface : String) : Option String :=
  match info.driverName.bind tables.byDriver with
  | some n => if n ≠ interface then some n else none
  | none => none

/-- The hardware-address branch in isolation. -/
def macDecision (tables : MatchTables) (info : DeviceInfo)
    (interface : String) : Option String :=
  match info.macaddress.bind tables.byMac with
  | some n => if n ≠ interface then some n else none
  | none => none

/-- The net effect of one iteration of the per-interface loop on the
`changes` entry for that interface: `none` when the interface is skipped
or no branch fires, otherwise the final recorded target (hardware-address
branch first, driver branch as fallback). -/
def decideFor (phys : List PhysEntry) (composites : List (List CompositeEntry))
    (tables : MatchTables) (info : DeviceInfo) (interface : String) :
    Option String :=
  if interface ∈ phys.map Prod.fst then
    if is_composite_member composites interface then none
    else
      match info.operstate with
      | none => none
      | some state =>
        if state = "down" then
          orelse (macDecision tables info interface)
            (driverDecision tables info interface)
        else none
  else none

/-- The restart decision of `command_apply` for one backend (apply.py
lines 49-50 and 67-72): `restart = bool(glob-after)`, then
`if not restart and old_files: restart = True`. -/
def decideRestart (old_files after_files : Bool) : Bool :=
  let restart := after_files
  if !restart && old_files then true else restart

/-- What the generation step of `command_apply` does to control flow. -/
inductive GenerateOutcome where
  | exitedProcess (code : Nat)
  | raisedConfigurationError
  | proceeded
deriving DecidableEq

/-- `os.EX_CONFIG` -/
def EX_CONFIG : Nat := 78

/-- The generation step of `command_apply` (apply.py lines 52-56):
`if run_generate and subprocess.call([generator]) != 0:` then
`sys.exit(os.EX_CONFIG)` under `exit_on_error`, else raise
`ConfigurationError`; otherwise fall through. -/
def generateStep (run_generate : Bool) (generator_exit_code : Int)
    (exit_on_error : Bool) : GenerateOutcome :=
  if run_generate ∧ generator_exit_code ≠ 0 then
    if exit_on_error then .exitedProcess EX_CONFIG
    else .raisedConfigurationError
  else .proceeded

/-- Outcome of the rename-application loop of `command_apply`: the renames
actually performed (in order) and whether a `CalledProcessError` escaped
the loop. -/
structure RenamePhaseResult where
  applied : List (String × String)
  raised : Bool
deriving DecidableEq

/-- The loop `for iface, settings in changes.items():` of `command_apply`
(apply.py lines 111-119).  `renameOk iface new_name` models the exit
status of the `ip link set` call; `subprocess.check_call` raises on a
non-zero status and nothing catches the exception, so the loop stops
there. -/
def applyRenamePhase (renameOk : String → String → Bool) :
    RenameChangeSet → RenamePhaseResult
  | [] => ⟨[], false⟩
  | (iface, new_name) :: rest =>
    if new_name ≠ "" then
      if renameOk iface new_name then
        let r := applyRenamePhase renameOk rest
        ⟨(iface, new_name) :: r.applied, r.raised⟩
      else ⟨[], true⟩
    else applyRenamePhase renameOk rest

/-- `subprocess.check_call(['udevadm', 'settle'])` (apply.py line 121) runs
only if the rename loop did not raise. -/
def settleReached (r : RenamePhaseResult) : Bool := !r.raised

/-- Observable actions of the NetworkManager stop branch of
`command_apply` (apply.py lines 81-94): the devices for which a
disconnect was attempted, and whether the service was stopped. -/
structure NMStopActions where
  disconnect_attempted : List String
  nm_stopped : Bool
deriving DecidableEq

/-- The `if restart_nm:` stop branch (apply.py lines 81-94): the
per-device disconnect loop and the `systemctl stop` both sit inside
`if utils.nm_running():`. -/
def nmStopPhase (restart_nm nm_running : Bool) (devices : List String) :
    NMStopActions :=
  if restart_nm then
    if nm_running then ⟨devices, true⟩ else ⟨[], false⟩
  else ⟨[], false⟩

/-- The `if restart_nm:` start branch (apply.py lines 129-131): whether
`systemctl_network_manager('start')` runs. -/
def nmStartPhase (restart_nm : Bool) : Bool := restart_nm

/-- Interface names after the planned renames are applied: a renamed
interface bears its target name, any other keeps its own. -/
def renameApplied (changes : RenameChangeSet) (interfaces : List String) :
    List String :=
  interfaces.map fun i => (lookupRen changes i).getD i

/-- Concrete configuration: a driver rule `drv → ethA`, a hardware-address
rule `aa:bb → ethB`, and bare stanzas for the live names. -/
def physA : List PhysEntry :=
  [("eth0", none),
   ("p1", some ⟨some "ethA", some ⟨some "drv", none⟩⟩),
   ("p2", some ⟨some "ethB", some ⟨none, some "aa:bb"⟩⟩),
   ("ethB", none)]

/-- Concrete device observations: every name reports operstate `down`,
driver `drv` and address `aa:bb`. -/
def devA : String → DeviceInfo := fun _ => ⟨some "down", some "drv", some "aa:bb"⟩

/-- Concrete composite dicts: one bridge `br0` with member `mem0`. -/
def compsB : List (List CompositeEntry) := [[⟨"br0", ["mem0"]⟩]]

/-- Concrete device observations with operstate `up`. -/
def devUp : String → DeviceInfo := fun _ => ⟨some "up", none, none⟩

/-- Concrete configuration whose single rule maps driver `drv` and address
`mm` to the same target `ethA`. -/
def physW : List PhysEntry :=
  [("eth0", none),
   ("p1", some ⟨some "ethA", some ⟨some "drv", some "mm"⟩⟩),
   ("ethA", none)]

/-- Concrete device observations for `physW`. -/
def devW : String → DeviceInfo := fun _ => ⟨some "down", some "drv", some "mm"⟩

theorem orelse_none (a : Option String) : orelse a none = a := by
  cases a <;> rfl

theorem orelse_absorb (a b : Option String) :
    orelse a (orelse a b) = orelse a b := by
  cases a <;> rfl

theorem orelse_eq_none_iff (a b : Option String) :
    orelse a b = none ↔ a = none ∧ b = none := by
  cases a <;> simp [orelse]

theorem lookupRen_append (d₁ d₂ : RenameChangeSet) (j : String) :
    lookupRen (d₁ ++ d₂) j = orelse (lookupRen d₁ j) (lookupRen d₂ j) := by
  induction d₁ with
  | nil => rfl
  | cons a d ih =>
    by_cases h : a.1 = j <;> simp [lookupRen, h, orelse, ih]

theorem lookupRen_ne_none_iff (d : RenameChangeSet) (k : String) :
    lookupRen d k ≠ none ↔ ∃ p ∈ d, p.1 = k := by
  induction d with
  | nil => simp [lookupRen]
  | cons a d ih =>
    by_cases h : a.1 = k <;> simp [lookupRen, h, ih]

theorem lookupRen_map_update (d : RenameChangeSet) (k v j : String) :
    lookupRen (d.map fun p => if p.1 = k then (k, v) else p) j =
      if j = k then (lookupRen d k).map (fun _ => v) else lookupRen d j := by
  induction d with
  | nil => simp [lookupRen]
  | cons a d ih =>
    by_cases hak : a.1 = k
    · by_cases hjk : j = k
      · subst hjk
        simp [lookupRen, hak, List.map_cons, if_pos hak]
      · have haj : ¬ a.1 = j := fun h => hjk (h ▸ hak ▸ rfl)
        have hkj : ¬ k = j := fun h => hjk h.symm
        simp [lookupRen, List.map_cons, if_pos hak, hjk, haj, ih, hkj]
    · by_cases haj : a.1 = j
      · have hjk : ¬ j = k := fun h => hak (haj.trans h)
        simp [lookupRen, List.map_cons, if_neg hak, haj, hjk]
      · simp [lookupRen, List.map_cons, if_neg hak, haj, ih]

theorem lookupRen_dictUpdate (d : RenameChangeSet) (k v j : String) :
    lookupRen (dictUpdate d k v) j =
      if j = k then some v else lookupRen d j := by
  unfold dictUpdate
  split
  · next hex =>
    rw [lookupRen_map_update]
    by_cases hjk : j = k
    · have : lookupRen d k ≠ none := (lookupRen_ne_none_iff d k).mpr hex
      cases h : lookupRen d k with
      | none => exact absurd h this
      | some w => simp [hjk, h]
    · simp [hjk]
  · next hex =>
    rw [lookupRen_append]
    by_cases hjk : j = k
    · subst hjk
      have : lookupRen d j = none := by
        by_contra h
        exact hex ((lookupRen_ne_none_iff d j).mp h)
      simp [this, lookupRen, orelse]
    · have hkj : ¬ k = j := fun h => hjk h.symm
      simp [lookupRen, hkj, orelse_none, hjk]

theorem lookupRen_planStep (phys : List PhysEntry)
    (comps : List (List CompositeEntry)) (dev : String → DeviceInfo)
    (tables : MatchTables) (changes : RenameChangeSet) (i j : String) :
    lookupRen (planStep phys comps dev tables changes i) j =
      if j = i then
        orelse (decideFor phys comps tables (dev i) i) (lookupRen changes j)
      else lookupRen changes j := by
  unfold planStep decideFor
  by_cases hmem : i ∈ phys.map Prod.fst
  · simp only [if_pos hmem]
    by_cases hcomp : is_composite_member comps i = true
    case pos => simp [hcomp, orelse]
    · rw [if_neg hcomp, if_neg hcomp]
      cases hop : (dev i).operstate with
      | none => simp [orelse]
      | some state =>
        by_cases hst : state = "down"
        · simp only [if_pos hst]
          cases hdrv : (dev i).driverName.bind tables.byDriver with
          | none =>
            cases hmac : (dev i).macaddress.bind tables.byMac with
            | none => simp [macDecision, driverDecision, hdrv, hmac, orelse]
            | some b =>
              by_cases hb : b = i
              · simp [macDecision, driverDecision, hdrv, hmac, hb, orelse]
              · simp [macDecision, driverDecision, hdrv, hmac, hb, orelse,
                  lookupRen_dictUpdate]
          | some a =>
            by_cases ha : a = i
            · cases hmac : (dev i).macaddress.bind tables.byMac with
              | none => simp [macDecision, driverDecision, hdrv, hmac, ha, orelse]
              | some b =>
                by_cases hb : b = i
                · simp [macDecision, driverDecision, hdrv, hmac, ha, hb, orelse]
                · simp [macDecision, driverDecision, hdrv, hmac, ha, hb, orelse,
                    lookupRen_dictUpdate]
            · cases hmac : (dev i).macaddress.bind tables.byMac with
              | none =>
                simp [macDecision, driverDecision, hdrv, hmac, ha, orelse,
                  lookupRen_dictUpdate]
              | some b =>
                by_cases hb : b = i
                · simp [macDecision, driverDecision, hdrv, hmac, ha, hb, orelse,
                    lookupRen_dictUpdate]
                · by_cases hji : j = i <;>
                    simp [macDecision, driverDecision, hdrv, hmac, ha, hb,
                      orelse, lookupRen_dictUpdate, hji]
        · simp [hop, hst, orelse]
  · simp [hmem, orelse]

theorem lookupRen_foldl (phys : List PhysEntry)
    (comps : List (List CompositeEntry)) (dev : String → DeviceInfo)
    (tables : MatchTables) (interfaces : List String)
    (changes : RenameChangeSet) (j : String) :
    lookupRen (interfaces.foldl (planStep phys comps dev tables) changes) j =
      if j ∈ interfaces then
        orelse (decideFor phys comps tables (dev j) j) (lookupRen changes j)
      else lookupRen changes j := by
  induction interfaces generalizing changes with
  | nil => simp
  | cons i rest ih =>
    rw [List.foldl_cons, ih]
    by_cases hji : j = i
    · subst hji
      simp [lookupRen_planStep, orelse_absorb]
    · simp [List.mem_cons, hji, lookupRen_planStep]

theorem lookupRen_process (interfaces : List String) (phys : List PhysEntry)
    (comps : List (List CompositeEntry)) (dev : String → DeviceInfo)
    (j : String) :
    lookupRen (process_link_changes interfaces phys comps dev) j =
      if j ∈ interfaces then
        decideFor phys comps (buildTables phys) (dev j) j
      else none := by
  unfold process_link_changes
  rw [lookupRen_foldl]
  simp [lookupRen, orelse_none]

theorem planStep_eq_self (phys : List PhysEntry)
    (comps : List (List CompositeEntry)) (dev : String → DeviceInfo)
    (tables : MatchTables) (changes : RenameChangeSet) (i : String)
    (h : decideFor phys comps tables (dev i) i = none) :
    planStep phys comps dev tables changes i = changes := by
  unfold planStep
  unfold decideFor macDecision driverDecision at h
  by_cases hmem : i ∈ phys.map Prod.fst
  · simp only [if_pos hmem] at h ⊢
    by_cases hcomp : is_composite_member comps i = true
    case pos => simp [hcomp]
    · rw [if_neg hcomp] at h
      rw [if_neg hcomp]
      cases hop : (dev i).operstate with
      | none => simp
      | some state =>
        by_cases hst : state = "down"
        · simp only [hop, if_pos hst] at h ⊢
          cases hdrv : (dev i).driverName.bind tables.byDriver with
          | none =>
            cases hmac : (dev i).macaddress.bind tables.byMac with
            | none => simp [hdrv, hmac]
            | some b =>
              simp only [hdrv, hmac, orelse] at h
              by_cases hb : b = i
              · simp [hdrv, hmac, hb]
              · simp [hb] at h
          | some a =>
            cases hmac : (dev i).macaddress.bind tables.byMac with
            | none =>
              simp only [hdrv, hmac, orelse] at h
              by_cases ha : a = i
              · simp [hdrv, hmac, ha]
              · simp [ha] at h
            | some b =>
              simp only [hdrv, hmac] at h
              by_cases hb : b = i
              · by_cases ha : a = i
                · simp [hdrv, hmac, ha, hb]
                · simp [hb, ha, orelse] at h
              · simp [hb, orelse] at h
        · simp [hop, hst]
  · simp [hmem]

theorem process_eq_nil (interfaces : List String) (phys : List PhysEntry)
    (comps : List (List CompositeEntry)) (dev : String → DeviceInfo)
    (h : ∀ j ∈ interfaces,
      decideFor phys comps (buildTables phys) (dev j) j = none) :
    process_link_changes interfaces phys comps dev = [] := by
  unfold process_link_changes
  have main : ∀ (l : List String) (changes : RenameChangeSet),
      (∀ j ∈ l, decideFor phys comps (buildTables phys) (dev j) j = none) →
      l.foldl (planStep phys comps dev (buildTables phys)) changes = changes := by
    intro l
    induction l with
    | nil => intro changes _; rfl
    | cons i rest ih =>
      intro changes hall
      rw [List.foldl_cons,
        planStep_eq_self _ _ _ _ _ _ (hall i (List.mem_cons_self i rest))]
      exact ih changes (fun j hj => hall j (List.mem_cons_of_mem i hj))
  exact main interfaces [] h

/-- C1: the restart decision of `command_apply` is false when the
backend's artifacts are absent both before and after generation, and true
in the other three cases (equivalently, it is the disjunction of the
before- and after-existence bits). -/
theorem C1_restart_decision :
    decideRestart false false = false ∧
    decideRestart true false = true ∧
    decideRestart false true = true ∧
    decideRestart true true = true ∧
    ∀ old_files after_files,
      decideRestart old_files after_files = (old_files || after_files) := by
  refine ⟨rfl, rfl, rfl, rfl, ?_⟩
  intro o a
  cases o <;> cases a <;> rfl

/-- C2: when a considered live interface matches the by-driver table with
target A and the by-mac table with target B, both differing from its
current name, `process_link_changes` records B for it: the
hardware-address match overwrites the driver match. -/
theorem C2_mac_match_overwrites_driver_match (phys : List PhysEntry)
    (comps : List (List CompositeEntry)) (dev : String → DeviceInfo)
    (interfaces : List String) (i A B d m : String)
    (hlive : i ∈ interfaces)
    (hphy : i ∈ phys.map Prod.fst)
    (hcomp : is_composite_member comps i = false)
    (hop : (dev i).operstate = some "down")
    (hdrv : (dev i).driverName = some d)
    (hmac : (dev i).macaddress = some m)
    (hA : (buildTables phys).byDriver d = some A)
    (hB : (buildTables phys).byMac m = some B)
    (hAi : A ≠ i) (hBi : B ≠ i) :
    lookupRen (process_link_changes interfaces phys comps dev) i = some B := by
  rw [lookupRen_process, if_pos hlive]
  unfold decideFor macDecision
  rw [if_pos hphy, if_neg (by rw [hcomp]; exact Bool.false_ne_true), hop]
  simp [hmac, hB, hBi, orelse]

/-- C2 witness: on `physA`/`devA`, interface `eth0` matches the driver
rule (→ ethA) and the hardware-address rule (→ ethB); the plan maps it to
`ethB`. -/
theorem C2_witness :
    lookupRen (process_link_changes ["eth0"] physA [] devA) "eth0" =
      some "ethB" :=
  C2_mac_match_overwrites_driver_match physA [] devA ["eth0"] "eth0"
    "ethA" "ethB" "drv" "aa:bb" (by decide) (by decide) rfl rfl rfl rfl
    (by decide) (by decide) (by decide) (by decide)

/-- C3: an interface that is a member of any declared composite is never
in the RenameChangeSet, whatever the match tables contain; and
`is_composite_member` returns true exactly when the name appears in some
composite entry's member list. -/
theorem C3_composite_members_never_renamed (phys : List PhysEntry)
    (comps : List (List CompositeEntry)) (dev : String → DeviceInfo)
    (interfaces : List String) (i : String) :
    (is_composite_member comps i = true →
      lookupRen (process_link_changes interfaces phys comps dev) i = none) ∧
    (is_composite_member comps i = true ↔
      ∃ composite ∈ comps, ∃ e ∈ composite, i ∈ e.interfaces) := by
  constructor
  · intro hc
    rw [lookupRen_process]
    have hd : decideFor phys comps (buildTables phys) (dev i) i = none := by
      unfold decideFor
      by_cases hmem : i ∈ phys.map Prod.fst
      · rw [if_pos hmem, if_pos hc]
      · rw [if_neg hmem]
    simp [hd]
  · unfold is_composite_member
    simp only [List.any_eq_true, decide_eq_true_eq]
    constructor
    · rintro ⟨c, hc, e, he, x, hx, rfl⟩
      exact ⟨c, hc, e, he, hx⟩
    · rintro ⟨c, hc, e, he, hx⟩
      exact ⟨c, hc, e, he, i, hx, rfl⟩

/-- C3 witness: `mem0` is a member of bridge `br0`, so the plan for
`mem0` on `compsB` is empty. -/
theorem C3_witness :
    lookupRen (process_link_changes ["mem0"] physA compsB devA) "mem0" =
      none :=
  (C3_composite_members_never_renamed physA compsB devA ["mem0"] "mem0").1
    (by decide)

/-- C4: an interface whose operstate reads as anything other than `down`
is never in the RenameChangeSet. -/
theorem C4_non_down_never_renamed (phys : List PhysEntry)
    (comps : List (List CompositeEntry)) (dev : String → DeviceInfo)
    (interfaces : List String) (i st : String)
    (hop : (dev i).operstate = some st) (hst : st ≠ "down") :
    lookupRen (process_link_changes interfaces phys comps dev) i = none := by
  rw [lookupRen_process]
  have hd : decideFor phys comps (buildTables phys) (dev i) i = none := by
    unfold decideFor
    by_cases hmem : i ∈ phys.map Prod.fst
    · rw [if_pos hmem]
      by_cases hc : is_composite_member comps i = true
      · rw [if_pos hc]
      · rw [if_neg hc, hop]
        simp [hst]
    · rw [if_neg hmem]
  simp [hd]

/-- C4 witness: with operstate `up`, `eth0` is not renamed even though it
matches both tables of `physA`. -/
theorem C4_witness :
    lookupRen (process_link_changes ["eth0"] physA [] devUp) "eth0" =
      none :=
  C4_non_down_never_renamed physA [] devUp ["eth0"] "eth0" "up" rfl
    (by decide)

/-- C5 counterexample: on `physA`/`devA` the first run renames `eth0` to
`ethB` (hardware-address rule wins), but with no other state change the
second run is NOT empty: the driver rule (→ ethA) still mismatches the
new name, so the second run plans the rename `ethB → ethA`. -/
theorem C5_counterexample :
    process_link_changes ["eth0"] physA [] devA = [("eth0", "ethB")] ∧
    renameApplied (process_link_changes ["eth0"] physA [] devA) ["eth0"] =
      ["ethB"] ∧
    process_link_changes
      (renameApplied (process_link_changes ["eth0"] physA [] devA) ["eth0"])
      physA [] devA = [("ethB", "ethA")] ∧
    ([("ethB", "ethA")] : RenameChangeSet) ≠ [] := by
  refine ⟨by decide, by decide, by decide, by decide⟩

/-- C5 (amended): a second planner run on the renamed state is empty
provided that, for every interface, the by-driver target and the by-mac
target agree whenever both exist (without that proviso the applied by-mac
target can still mismatch the by-driver target, as the counterexample
shows).  `h1` says the renamed interface carries the same observed device
attributes; phys stanzas and composites are unchanged. -/
theorem C5_second_run_empty (phys : List PhysEntry)
    (comps : List (List CompositeEntry)) (dev dev' : String → DeviceInfo)
    (interfaces : List String)
    (h1 : ∀ i ∈ interfaces,
      dev' ((lookupRen (process_link_changes interfaces phys comps dev) i).getD i) =
        dev i)
    (h2 : ∀ i ∈ interfaces, ∀ a b,
      (dev i).driverName.bind (buildTables phys).byDriver = some a →
      (dev i).macaddress.bind (buildTables phys).byMac = some b → a = b) :
    process_link_changes
      (renameApplied (process_link_changes interfaces phys comps dev) interfaces)
      phys comps dev' = [] := by
  apply process_eq_nil
  intro j hj
  unfold renameApplied at hj
  obtain ⟨i, hi, hji⟩ := List.mem_map.mp hj
  have hrun1 : lookupRen (process_link_changes interfaces phys comps dev) i =
      decideFor phys comps (buildTables phys) (dev i) i := by
    rw [lookupRen_process, if_pos hi]
  cases hdec : decideFor phys comps (buildTables phys) (dev i) i with
  | none =>
    have hj_eq : j = i := by rw [← hji, hrun1, hdec]; rfl
    subst hj_eq
    have hdev : dev' j = dev j := by
      have hh := h1 j hi
      rwa [hrun1, hdec] at hh
    rw [hdev]
    exact hdec
  | some t =>
    have hj_eq : j = t := by rw [← hji, hrun1, hdec]; rfl
    subst hj_eq
    have hdev : dev' j = dev i := by
      have hh := h1 i hi
      rwa [hrun1, hdec] at hh
    rw [hdev]
    unfold decideFor at hdec ⊢
    by_cases hmem : i ∈ phys.map Prod.fst
    case neg => rw [if_neg hmem] at hdec; exact Option.noConfusion hdec
    rw [if_pos hmem] at hdec
    by_cases hcomp : is_composite_member comps i = true
    case pos => rw [if_pos hcomp] at hdec; exact Option.noConfusion hdec
    rw [if_neg hcomp] at hdec
    by_cases hmem' : j ∈ phys.map Prod.fst
    case neg => rw [if_neg hmem']
    rw [if_pos hmem']
    by_cases hcomp' : is_composite_member comps j = true
    case pos => rw [if_pos hcomp']
    rw [if_neg hcomp']
    cases hopi : (dev i).operstate with
    | none => simp [hopi] at hdec
    | some st =>
      by_cases hst : st = "down"
      case neg => simp [hopi, hst] at hdec
      subst hst
      rw [hopi] at hdec
      simp only [if_true, eq_self_iff_true] at hdec ⊢
      unfold macDecision driverDecision at hdec ⊢
      cases hmb : (dev i).macaddress.bind (buildTables phys).byMac with
      | some n =>
        by_cases hn : n = i
        · cases hdb : (dev i).driverName.bind (buildTables phys).byDriver with
          | none => simp [hmb, hdb, hn, orelse] at hdec
          | some a =>
            have hab : a = n := h2 i hi a n hdb hmb
            simp [hmb, hdb, hab, hn, orelse] at hdec
        · have hjn : n = j := by simp [hmb, hn, orelse] at hdec; exact hdec
          subst hjn
          cases hdb : (dev i).driverName.bind (buildTables phys).byDriver with
          | none => simp [hmb, hdb, orelse]
          | some a =>
            have hab : a = n := h2 i hi a n hdb hmb
            simp [hmb, hdb, hab, orelse]
      | none =>
        cases hdb : (dev i).driverName.bind (buildTables phys).byDriver with
        | none => simp [hmb, hdb, orelse] at hdec
        | some a =>
          by_cases ha : a = i
          · simp [hmb, hdb, ha, orelse] at hdec
          · have hja : a = j := by simp [hmb, hdb, ha, orelse] at hdec; exact hdec
            subst hja
            simp [hmb, hdb, orelse]

/-- C5 witness: with the single rule of `physW`, whose driver and
hardware-address targets agree, the second run after applying
`eth0 → ethA` is empty. -/
theorem C5_witness :
    process_link_changes
      (renameApplied (process_link_changes ["eth0"] physW [] devW) ["eth0"])
      physW [] devW = [] := by
  apply C5_second_run_empty physW [] devW devW ["eth0"]
  · intro i hi
    rfl
  · intro i hi a b hda hmb
    simp only [List.mem_singleton] at hi
    subst hi
    have hda' : (devW "eth0").driverName.bind (buildTables physW).byDriver =
        some "ethA" := by decide
    have hmb' : (devW "eth0").macaddress.bind (buildTables physW).byMac =
        some "ethA" := by decide
    rw [hda'] at hda
    rw [hmb'] at hmb
    cases hda
    cases hmb
    rfl

/-- C6: when two physical match rules declare the same driver (resp. the
same hardware address) with different target names, the built table maps
that key to the later-processed rule's target; building is a total
function, so no error is raised. -/
theorem C6_last_writer_wins (pre : List PhysEntry) (p1 p2 d m n1 n2 : String)
    (hp1 : p1 ≠ "renderer") (hp2 : p2 ≠ "renderer")
    (hn1 : n1 ≠ "") (hn2 : n2 ≠ "") (hd : d ≠ "") (hm : m ≠ "")
    (hne : n1 ≠ n2) :
    (buildTables (pre ++
        [(p1, some ⟨some n1, some ⟨some d, none⟩⟩),
         (p2, some ⟨some n2, some ⟨some d, none⟩⟩)])).byDriver d = some n2 ∧
    (buildTables (pre ++
        [(p1, some ⟨some n1, some ⟨none, some m⟩⟩),
         (p2, some ⟨some n2, some ⟨none, some m⟩⟩)])).byMac m = some n2 := by
  constructor
  · rw [buildTables, List.foldl_append]
    simp [buildStep, hp1, hp2, hn1, hn2, hd, tableInsert]
  · rw [buildTables, List.foldl_append]
    simp [buildStep, hp1, hp2, hn1, hn2, hm, tableInsert]

/-- C6 witness: rules `a: drv → x` then `b: drv → y` yield `drv ↦ y`, and
likewise for a shared hardware address. -/
theorem C6_witness :
    (buildTables
        [("a", some ⟨some "x", some ⟨some "drv", none⟩⟩),
         ("b", some ⟨some "y", some ⟨some "drv", none⟩⟩)]).byDriver "drv" =
      some "y" ∧
    (buildTables
        [("a", some ⟨some "x", some ⟨none, some "mm"⟩⟩),
         ("b", some ⟨some "y", some ⟨none, some "mm"⟩⟩)]).byMac "mm" =
      some "y" :=
  C6_last_writer_wins [] "a" "b" "drv" "mm" "x" "y" (by decide) (by decide)
    (by decide) (by decide) (by decide) (by decide) (by decide)

/-- C7: a non-zero generator exit terminates the process with EX_CONFIG
when exit_on_error is set and raises ConfigurationError otherwise; a
skipped generation or a zero exit does neither. -/
theorem C7_generation_failure_handling (code : Int) (h : code ≠ 0) :
    generateStep true code true = .exitedProcess EX_CONFIG ∧
    generateStep true code false = .raisedConfigurationError ∧
    (∀ exit_on_error : Bool,
      generateStep false code exit_on_error = .proceeded) ∧
    (∀ exit_on_error : Bool,
      generateStep true 0 exit_on_error = .proceeded) := by
  refine ⟨?_, ?_, ?_, ?_⟩ <;> simp [generateStep, h]

/-- C7 witness: generator exit code 1. -/
theorem C7_witness :
    (1 : Int) ≠ 0 ∧
    generateStep true 1 true = GenerateOutcome.exitedProcess EX_CONFIG :=
  ⟨by decide, (C7_generation_failure_handling 1 (by decide)).1⟩

/-- C8 counterexample: with entries `a → b` then `c → d` and the rename
primitive failing on `a`, the exception escapes the loop: the remaining
entry `c → d` is NOT applied and the settle phase is NOT reached,
refuting "every remaining entry is still applied and the pass proceeds to
the settle phase". -/
theorem C8_counterexample :
    (applyRenamePhase (fun iface _ => iface != "a")
        [("a", "b"), ("c", "d")]).applied = [] ∧
    (("c", "d") ∈ (applyRenamePhase (fun iface _ => iface != "a")
        [("a", "b"), ("c", "d")]).applied → False) ∧
    settleReached (applyRenamePhase (fun iface _ => iface != "a")
        [("a", "b"), ("c", "d")]) = false := by
  refine ⟨by decide, by decide, by decide⟩

/-- C8 (amended): when the rename primitive fails for one entry, the
`CalledProcessError` from `subprocess.check_call` propagates (nothing
catches it): the entries before the failing one remain applied, no entry
after it is applied, and the settle phase is not reached. -/
theorem C8_rename_failure_aborts_loop (renameOk : String → String → Bool)
    (pre rest : RenameChangeSet) (iface n : String)
    (hpre : ∀ p ∈ pre, p.2 ≠ "" → renameOk p.1 p.2 = true)
    (hn : n ≠ "") (hfail : renameOk iface n = false) :
    applyRenamePhase renameOk (pre ++ (iface, n) :: rest) =
      ⟨pre.filter (fun p => p.2 != ""), true⟩ ∧
    settleReached (applyRenamePhase renameOk (pre ++ (iface, n) :: rest)) =
      false := by
  have main : ∀ pr : RenameChangeSet,
      (∀ p ∈ pr, p.2 ≠ "" → renameOk p.1 p.2 = true) →
      applyRenamePhase renameOk (pr ++ (iface, n) :: rest) =
        ⟨pr.filter (fun p => p.2 != ""), true⟩ := by
    intro pr
    induction pr with
    | nil => intro _; simp [applyRenamePhase, hn, hfail]
    | cons a pr ih =>
      intro hp
      obtain ⟨a1, a2⟩ := a
      have ih' := ih fun p hmem hne => hp p (List.mem_cons_of_mem _ hmem) hne
      by_cases ha : a2 = ""
      · simp [applyRenamePhase, ha, ih']
      · have hok := hp (a1, a2) (List.mem_cons_self _ _) ha
        simp [applyRenamePhase, ha, hok, ih']
  have hm := main pre hpre
  exact ⟨hm, by rw [hm]; rfl⟩

/-- C8 witness: with `x → y` succeeding, `a → b` failing and `c → d`
pending, only `x → y` is applied and settle is not reached. -/
theorem C8_witness :
    applyRenamePhase (fun iface _ => iface != "a")
        ([("x", "y")] ++ ("a", "b") :: [("c", "d")]) =
      ⟨[("x", "y")].filter (fun p => p.2 != ""), true⟩ ∧
    settleReached (applyRenamePhase (fun iface _ => iface != "a")
        ([("x", "y")] ++ ("a", "b") :: [("c", "d")])) = false :=
  C8_rename_failure_aborts_loop (fun iface _ => iface != "a")
    [("x", "y")] [("c", "d")] "a" "b" (by decide) (by decide) (by decide)

/-- C9: an entry whose key is the reserved token `renderer`, whose
settings block is empty/falsy, which lacks (or has a falsy) `set-name`,
or which lacks a match block, is skipped: it leaves the tables unchanged,
both as a single build step and inside a whole table build, and so can
produce no rename. -/
theorem C9_inert_rules_skipped (acc : MatchTables) (phy : String)
    (s : Option PhySettings) (l1 l2 : List PhysEntry)
    (h : s = none ∨ phy = "renderer" ∨
      (∃ st, s = some st ∧
        (st.setName = none ∨ st.setName = some "" ∨ st.matchBlk = none))) :
    buildStep acc (phy, s) = acc ∧
    buildTables (l1 ++ (phy, s) :: l2) = buildTables (l1 ++ l2) := by
  have hstep : ∀ acc2 : MatchTables, buildStep acc2 (phy, s) = acc2 := by
    intro acc2
    rcases h with rfl | hr | ⟨st, rfl, hin⟩
    · rfl
    · cases s with
      | none => rfl
      | some st => simp [buildStep, hr]
    · by_cases hphy : phy = "renderer"
      · simp [buildStep, hphy]
      · rcases hin with hsn | hsn | hsn
        · simp [buildStep, hphy, hsn]
        · simp [buildStep, hphy, hsn]
        · cases hsName : st.setName with
          | none => simp [buildStep, hphy, hsName]
          | some nm =>
            by_cases hnm : nm = ""
            · simp [buildStep, hphy, hsName, hnm]
            · simp [buildStep, hphy, hsName, hnm, hsn]
  refine ⟨hstep acc, ?_⟩
  rw [buildTables, buildTables, List.foldl_append, List.foldl_append,
    List.foldl_cons, hstep]

/-- C9 witness: a `renderer` entry between real rules contributes
nothing. -/
theorem C9_witness :
    buildStep emptyTables
      ("renderer", some ⟨some "x", some ⟨some "d", none⟩⟩) = emptyTables ∧
    buildTables ([] ++
        ("renderer", some ⟨some "x", some ⟨some "d", none⟩⟩) ::
        [("p", some ⟨some "t", some ⟨some "dd", none⟩⟩)]) =
      buildTables ([] ++ [("p", some ⟨some "t", some ⟨some "dd", none⟩⟩)]) :=
  C9_inert_rules_skipped emptyTables "renderer"
    (some ⟨some "x", some ⟨some "d", none⟩⟩) []
    [("p", some ⟨some "t", some ⟨some "dd", none⟩⟩)] (Or.inr (Or.inl rfl))

/-- C10: even with a true restart decision for NetworkManager, the
per-device disconnect loop and the service stop run only when the daemon
is running; when it is not, the stop phase is skipped entirely while the
start phase still starts the service. -/
theorem C10_nm_stop_gated_on_running (devices : List String) :
    nmStopPhase true false devices = ⟨[], false⟩ ∧
    nmStopPhase true true devices = ⟨devices, true⟩ ∧
    nmStartPhase true = true :=
  ⟨rfl, rfl, rfl⟩

end NetplanApply
